import Mathlib

/-!
Verification of the text-normalization and audio-assembly pipeline of the
ViaVoice speech-dispatcher module (`src/sd_viavoice.c`).

Byte strings are modelled as `List Nat`, each element the value of one
`unsigned char` (the C code never relies on values above 255, and genuine
C strings contain no interior NUL; where the C code tests bytes against
the terminator we test against 0 explicitly).
-/

namespace ViaVoice

/-- Whitespace trimmed by `strip_ssml`: space, newline, tab. -/
def isTrimWS (c : Nat) : Bool := c == 32 || c == 10 || c == 9

/-- The scan loop of `decode_xml_entities` from `sd_viavoice.c`: at each
`&` the five entities `&amp; &lt; &gt; &apos; &quot;` are tried in order
(the compared byte strings are their tails after the `&`) and replaced by
their single-character equivalents; an `&` matching no entity is copied
through.  The first argument is fuel making the recursion structural;
every step consumes at least one input byte, so fuel above the input
length never runs out, and the fuel-exhausted branch returns its input
unchanged. -/
def decodeLoop : Nat → List Nat → List Nat
  | 0, l => l
  | _ + 1, [] => []
  | fuel + 1, c :: rest =>
    if c == 38 then
      if rest.take 4 == [97, 109, 112, 59] then 38 :: decodeLoop fuel (rest.drop 4)
      else if rest.take 3 == [108, 116, 59] then 60 :: decodeLoop fuel (rest.drop 3)
      else if rest.take 3 == [103, 116, 59] then 62 :: decodeLoop fuel (rest.drop 3)
      else if rest.take 5 == [97, 112, 111, 115, 59] then 39 :: decodeLoop fuel (rest.drop 5)
      else if rest.take 5 == [113, 117, 111, 116, 59] then 34 :: decodeLoop fuel (rest.drop 5)
      else 38 :: decodeLoop fuel rest
    else c :: decodeLoop fuel rest

/-- `decode_xml_entities` from `sd_viavoice.c`. -/
def decode_xml_entities (l : List Nat) : List Nat :=
  decodeLoop (l.length + 1) l

/-- The tag-removal loop of `strip_ssml`: a `<` enters tag state, a `>`
leaves it, and bytes are copied only outside tag state; the `<` and `>`
bytes themselves are never copied. -/
def stripTags (inTag : Bool) : List Nat → List Nat
  | [] => []
  | c :: rest =>
    if c == 60 then stripTags true rest
    else if c == 62 then stripTags false rest
    else if inTag then stripTags inTag rest
    else c :: stripTags inTag rest

/-- The trimming step of `strip_ssml`: drop leading, then trailing,
space/newline/tab. -/
def trimWS (l : List Nat) : List Nat :=
  ((l.dropWhile isTrimWS).reverse.dropWhile isTrimWS).reverse

/-- `strip_ssml` from `sd_viavoice.c`: remove `<...>` spans, decode the
five XML entities, trim leading and trailing whitespace. -/
def strip_ssml (text : List Nat) : List Nat :=
  trimWS (decode_xml_entities (stripTags false text))

/-- Safe pass-through characters of `sanitize_for_viavoice`:
ASCII letters, digits, space, tab, newline, and `. , ! ? $ '`. -/
def isSafePass (c : Nat) : Bool :=
  (65 ≤ c && c ≤ 90) || (97 ≤ c && c ≤ 122) || (48 ≤ c && c ≤ 57) ||
  c == 32 || c == 9 || c == 10 ||
  c == 46 || c == 44 || c == 33 || c == 63 || c == 36 || c == 39

/-- Clause-break punctuation of `sanitize_for_viavoice`: `; : ( ) [ ] { }`. -/
def isClauseBreak (c : Nat) : Bool :=
  c == 59 || c == 58 || c == 40 || c == 41 ||
  c == 91 || c == 93 || c == 123 || c == 125

/-- Punctuation skipped after a clause break: `. , ! ? ; :`. -/
def isSkipPunct (c : Nat) : Bool :=
  c == 46 || c == 44 || c == 33 || c == 63 || c == 59 || c == 58

/-- Space or tab, as skipped both from already-emitted output and from
the input after a clause break. -/
def isSpaceTab (c : Nat) : Bool := c == 32 || c == 9

/-- The clause-break rewrite on the emitted output, which is kept in
reverse order: strip trailing space/tab, then append a comma only when
some output precedes. -/
def clauseAcc (acc : List Nat) : List Nat :=
  let acc1 := acc.dropWhile isSpaceTab
  if acc1.isEmpty then acc1 else 44 :: acc1

/-- The clause-break skip on the remaining input: first a run of
`. , ! ? ; :`, then a run of space/tab. -/
def clauseSkip (rest : List Nat) : List Nat :=
  (rest.dropWhile isSkipPunct).dropWhile isSpaceTab

/-- "pound" as bytes. -/
def poundWord : List Nat := [112, 111, 117, 110, 100]
/-- "cent" as bytes. -/
def centWord : List Nat := [99, 101, 110, 116]
/-- "yen" as bytes. -/
def yenWord : List Nat := [121, 101, 110]
/-- "euro" as bytes. -/
def euroWord : List Nat := [101, 117, 114, 111]

/-- The main loop of `sanitize_for_viavoice`; `acc` is the output emitted
so far, in reverse order (the C code both appends to and pops from the
end of its output). A 0 byte ends the scan as the C terminator does.
The first argument is fuel making the recursion structural: every step
consumes at least one input byte, so any fuel above the input length
never runs out and the fuel-exhausted branch is unreachable. -/
def sanitizeLoop : Nat → List Nat → List Nat → List Nat
  | 0, acc, _ => acc.reverse
  | _ + 1, acc, [] => acc.reverse
  | fuel + 1, acc, c :: rest =>
    if c == 0 then acc.reverse
    else if c < 128 then
      if isSafePass c then sanitizeLoop fuel (c :: acc) rest
      else if isClauseBreak c then sanitizeLoop fuel (32 :: clauseAcc acc) (clauseSkip rest)
      else sanitizeLoop fuel (32 :: acc) rest
    else if c < 224 then
      -- two-byte sequence
      match rest with
      | [] => sanitizeLoop fuel acc []
      | b1 :: rest2 =>
        if b1 == 0 then sanitizeLoop fuel acc (b1 :: rest2)
        else if c == 194 && b1 == 163 then sanitizeLoop fuel (poundWord.reverse ++ acc) rest2
        else if c == 194 && b1 == 162 then sanitizeLoop fuel (centWord.reverse ++ acc) rest2
        else if c == 194 && b1 == 165 then sanitizeLoop fuel (yenWord.reverse ++ acc) rest2
        else sanitizeLoop fuel (32 :: acc) rest2
    else if c < 240 then
      -- three-byte sequence
      match rest with
      | [] => sanitizeLoop fuel acc []
      | [b1] => sanitizeLoop fuel acc [b1]
      | b1 :: b2 :: rest3 =>
        if b1 == 0 || b2 == 0 then sanitizeLoop fuel acc (b1 :: b2 :: rest3)
        else if c == 226 && b1 == 130 && b2 == 172 then
          sanitizeLoop fuel (euroWord.reverse ++ acc) rest3
        else if c == 226 && b1 == 128 && (b2 == 148 || b2 == 147) then
          sanitizeLoop fuel (32 :: clauseAcc acc) (clauseSkip rest3)
        else sanitizeLoop fuel (32 :: acc) rest3
    else
      -- four-byte sequence
      match rest with
      | [] => sanitizeLoop fuel acc []
      | [b1] => sanitizeLoop fuel acc [b1]
      | [b1, b2] => sanitizeLoop fuel acc [b1, b2]
      | b1 :: b2 :: b3 :: rest4 =>
        if b1 == 0 || b2 == 0 || b3 == 0 then sanitizeLoop fuel acc (b1 :: b2 :: b3 :: rest4)
        else sanitizeLoop fuel (32 :: acc) rest4

/-- `sanitize_for_viavoice` from `sd_viavoice.c`, as the byte string it
writes into its output buffer (the terminating NUL excluded). -/
def sanitize_for_viavoice (text : List Nat) : List Nat :=
  sanitizeLoop (text.length + 1) [] text

/-! ## The audio collector (`eci_callback`) and delivery (`module_speak_sync`) -/

/-- `ECIMessage` from `eci_viavoice.h`. -/
inductive ECIMessage
  | eciWaveformBuffer
  | eciPhonemeBuffer
  | eciIndexReply
  | eciPhonemeIndexReply
  deriving DecidableEq, Repr

/-- `ECICallbackReturn` from `eci_viavoice.h`. -/
inductive ECICallbackReturn
  | eciDataNotProcessed
  | eciDataProcessed
  deriving DecidableEq, Repr

/-- The `AudioData` struct of `sd_viavoice.c`. `samples` is `none` when the
C pointer is NULL; otherwise it is the contents of the heap block, of which
the first `num_samples` entries are the valid collected samples. -/
structure AudioData where
  samples : Option (List Int)
  num_samples : Nat
  allocated : Nat
  deriving DecidableEq, Repr

/-- The `static int audio_buffer_size = 20000` headroom constant. -/
def audio_buffer_size : Nat := 20000

/-- `eci_callback` from `sd_viavoice.c`. `stop` is the value of
`stop_requested` read at entry, `frag` the `new_samples`-sample fragment in
the engine's scratch buffer, and `reallocOK` whether `realloc` succeeds
when called (C `realloc` returns NULL on failure, and the code assigns
that result straight to `audio_data.samples`). Returns the updated
`audio_data` and the callback's return value. -/
def eci_callback (stop : Bool) (msg : ECIMessage) (frag : List Int)
    (reallocOK : Bool) (bufSize : Nat) (ad : AudioData) :
    AudioData × ECICallbackReturn :=
  if stop then (ad, .eciDataNotProcessed)
  else if msg = .eciWaveformBuffer then
    let new_samples := frag.length
    let new_size := ad.num_samples + new_samples
    if new_size > ad.allocated then
      if reallocOK then
        ({ samples := some (((ad.samples.getD []).take ad.num_samples) ++ frag),
           num_samples := new_size,
           allocated := new_size + bufSize }, .eciDataProcessed)
      else
        ({ ad with samples := none }, .eciDataNotProcessed)
    else
      ({ ad with
           samples := some (((ad.samples.getD []).take ad.num_samples) ++ frag),
           num_samples := new_size }, .eciDataProcessed)
  else (ad, .eciDataProcessed)

/-- The `AudioTrack` filled in by `module_speak_sync` before calling
`module_tts_output_server`. `samples` is the borrowed pointer
`audio_data.samples` (`none` = NULL). -/
structure Track where
  bits : Nat
  num_channels : Nat
  sample_rate : Nat
  num_samples : Nat
  samples : Option (List Int)
  deriving DecidableEq, Repr

/-- Events reported by `module_speak_sync` after `eciSynchronize` returns. -/
inductive SpeakEvent
  | eventStop
  | output (t : Track)
  | eventEnd
  deriving DecidableEq, Repr

/-- The tail of `module_speak_sync` (lines after `eciSynchronize`):
if `stop_requested` is set, report a stop; otherwise, when samples were
collected, hand the audio track to the server and report the end. -/
def speakDeliver (stop : Bool) (rate : Nat) (ad : AudioData) : List SpeakEvent :=
  if stop then [.eventStop]
  else if ad.num_samples > 0 then
    [.output ⟨16, 1, rate, ad.num_samples, ad.samples⟩, .eventEnd]
  else [.eventEnd]

/-- `SPDMessageType` of the speech-dispatcher module interface (the values
used by `module_speak_sync`). -/
inductive SPDMessageType
  | text
  | soundIcon
  | char
  | key
  | spell
  deriving DecidableEq, Repr

/-- The text-preparation phase of `module_speak_sync`: `strip_ssml` runs on
every message; `sanitize_for_viavoice` runs only for `SPD_MSGTYPE_TEXT`
and `SPD_MSGTYPE_SOUND_ICON`. `none` models the `module_speak_error` path
taken when the intermediate result is empty; `some t` is the byte string
handed to `eciAddText`. -/
def prepareText (msgtype : SPDMessageType) (data : List Nat) : Option (List Nat) :=
  let text := strip_ssml data
  if text = [] then none
  else if msgtype = .text ∨ msgtype = .soundIcon then
    let s := sanitize_for_viavoice text
    if s = [] then none else some s
  else some text

/-! ## Interleaving model for the callback / stop race

`stop_requested` is a plain flag set by `module_stop` / `module_pause`
without taking `audio_mutex`; `eci_callback` reads it once at entry,
before taking the mutex.  The model below splits one callback invocation
into its two atomic phases — the entry check of `stop_requested`
(line 82) and the locked waveform append (lines 85-106) — and lets a
stop request (`stop_requested = 1`, line 769) interleave between them. -/

/-- Atomic steps of the two threads: the callback's entry check, the
callback's locked append, and the stop handler's flag write. -/
inductive ThreadAct
  | cbEnter
  | cbAppend
  | stopSet
  deriving DecidableEq, Repr

/-- Shared state: the cancellation flag, the audio buffer, and whether a
callback invocation has passed its entry check and not yet appended. -/
structure ConcState where
  stop_requested : Bool
  ad : AudioData
  inCallback : Bool
  deriving DecidableEq, Repr

/-- One atomic step.  A callback that passed its entry check while the
flag was clear performs the append unconditionally — the flag is not
re-read inside the critical section. -/
def concStep (frag : List Int) (bufSize : Nat) : ConcState → ThreadAct → ConcState
  | s, .stopSet => { s with stop_requested := true }
  | s, .cbEnter => if s.stop_requested then s else { s with inCallback := true }
  | s, .cbAppend =>
    if s.inCallback then
      { s with
          ad := (eci_callback false .eciWaveformBuffer frag true bufSize s.ad).1,
          inCallback := false }
    else s

/-- Run a sequence of atomic steps. -/
def concRun (frag : List Int) (bufSize : Nat) (s : ConcState)
    (t : List ThreadAct) : ConcState :=
  t.foldl (concStep frag bufSize) s

theorem concRun_cons (frag : List Int) (bufSize : Nat) (s : ConcState)
    (a : ThreadAct) (t : List ThreadAct) :
    concRun frag bufSize s (a :: t) = concRun frag bufSize (concStep frag bufSize s a) t := rfl

/-! ## Theorems for the claims -/

/-- C1: the claim that `sanitize_for_viavoice` always writes at most
`2 * strlen(input)` output bytes, so that output plus terminating NUL fits
the `malloc(len * 2 + 1)` buffer, fails on the pound sign: the two input
bytes 0xC2 0xA3 produce the five bytes of "pound", and with the NUL six
bytes are written into the five-byte buffer. -/
theorem C1_pound_overflows_buffer :
    (sanitize_for_viavoice [194, 163]).length = 5 ∧
      (sanitize_for_viavoice [194, 163]).length + 1 > 2 * [(194 : Nat), 163].length + 1 := by
  decide

/-- C3 counterexample: on the exact input "wait; really?" the claimed
output "wait, really " is wrong — `sanitize_for_viavoice` keeps the
question mark, which is a safe pass-through character; the skip of
orphaned punctuation applies only immediately after the clause-break
character, and the word "really" intervenes. -/
theorem C3_counterexample :
    sanitize_for_viavoice [119, 97, 105, 116, 59, 32, 114, 101, 97, 108, 108, 121, 63] ≠
      [119, 97, 105, 116, 44, 32, 114, 101, 97, 108, 108, 121, 32] := by
  decide

/-- C3 amended: `sanitize_for_viavoice "wait; really?"` returns exactly
"wait, really?" — the semicolon becomes a comma attached to "wait"
followed by one space, and the final question mark is retained. -/
theorem C3_amended_exact_output :
    sanitize_for_viavoice [119, 97, 105, 116, 59, 32, 114, 101, 97, 108, 108, 121, 63] =
      [119, 97, 105, 116, 44, 32, 114, 101, 97, 108, 108, 121, 63] := by
  decide

/-- C6 counterexample: even for KEY messages the text handed to
`eciAddText` is not the raw utterance: `strip_ssml` still runs.  On the
raw bytes " a" (leading space) the submitted text is "a". -/
theorem C6_counterexample :
    prepareText .key [32, 97] = some [97] ∧ ([97] : List Nat) ≠ [32, 97] := by
  constructor
  · rfl
  · decide

/-- C6 amended: for CHAR and KEY messages `sanitize_for_viavoice` is
skipped, but `strip_ssml` (tag stripping, entity decoding, whitespace
trimming) is still applied: the text submitted to `eciAddText` is
`strip_ssml` of the raw bytes whenever that is non-empty, and the
empty result is reported as an error instead. -/
theorem C6_char_key_skip_sanitize (m : SPDMessageType) (data : List Nat)
    (h : m = .char ∨ m = .key) :
    prepareText m data =
      if strip_ssml data = [] then none else some (strip_ssml data) := by
  rcases h with rfl | rfl <;>
    · unfold prepareText
      by_cases he : strip_ssml data = [] <;> simp [he]

theorem C6_witness :
    (SPDMessageType.key = SPDMessageType.char ∨ SPDMessageType.key = SPDMessageType.key) ∧
      prepareText .key [32, 97] =
        (if strip_ssml [32, 97] = [] then none else some (strip_ssml [32, 97])) :=
  ⟨Or.inr rfl, C6_char_key_skip_sanitize .key [32, 97] (Or.inr rfl)⟩

/-- C7: at a state with three collected samples and a full buffer, a
fragment whose growth cannot be satisfied is dropped and the callback
returns `eciDataNotProcessed` — but `audio_data.samples` is overwritten
with the NULL result of the failed `realloc`, so the previously collected
samples are lost, and the subsequent delivery hands the server a track
whose sample pointer is NULL (with `num_samples` still 3) instead of the
collected audio. -/
theorem C7_realloc_failure_loses_audio :
    eci_callback false .eciWaveformBuffer [4, 5] false 20000
        ⟨some [1, 2, 3], 3, 3⟩ =
      (⟨none, 3, 3⟩, .eciDataNotProcessed) ∧
    speakDeliver false 22050 ⟨none, 3, 3⟩ =
      [.output ⟨16, 1, 22050, 3, none⟩, .eventEnd] := by
  constructor <;> rfl

/-- C8: when `stop_requested` is already set at entry, the callback
returns `eciDataNotProcessed` and leaves `audio_data` (samples, logical
length and capacity) completely unchanged, for every message kind,
fragment and allocator behaviour. -/
theorem C8_stop_refuses_fragment (msg : ECIMessage) (frag : List Int)
    (reallocOK : Bool) (bufSize : Nat) (ad : AudioData) :
    eci_callback true msg frag reallocOK bufSize ad = (ad, .eciDataNotProcessed) := rfl

/-- C10: with the cancellation flag clear, a callback invocation for any
message other than `eciWaveformBuffer` leaves `audio_data` completely
unchanged and returns `eciDataProcessed`. -/
theorem C10_non_waveform_frame (msg : ECIMessage) (frag : List Int)
    (reallocOK : Bool) (bufSize : Nat) (ad : AudioData)
    (h : msg ≠ .eciWaveformBuffer) :
    eci_callback false msg frag reallocOK bufSize ad = (ad, .eciDataProcessed) := by
  simp [eci_callback, h]

theorem C10_witness :
    (ECIMessage.eciIndexReply ≠ ECIMessage.eciWaveformBuffer) ∧
      eci_callback false .eciIndexReply [1, 2] true 20000 ⟨some [5], 1, 3⟩ =
        (⟨some [5], 1, 3⟩, .eciDataProcessed) :=
  ⟨by decide, C10_non_waveform_frame _ _ _ _ _ (by decide)⟩

/-- C2 counterexample: the interleaving `cbEnter, stopSet, cbAppend` —
the callback passes its entry check while the flag is clear, the stop
handler then sets `stop_requested`, and the callback still appends its
fragment.  After the flag is set the buffer holds 0 samples, yet the
final state holds 1: a fragment was appended after the flag became set. -/
theorem C2_counterexample :
    (concRun [7] 20000 ⟨false, ⟨some [], 0, 0⟩, false⟩
        [.cbEnter, .stopSet]).stop_requested = true ∧
    (concRun [7] 20000 ⟨false, ⟨some [], 0, 0⟩, false⟩
        [.cbEnter, .stopSet]).ad.num_samples = 0 ∧
    (concRun [7] 20000 ⟨false, ⟨some [], 0, 0⟩, false⟩
        [.cbEnter, .stopSet, .cbAppend]).ad.num_samples = 1 := by
  decide

/-- C2 amended: once `stop_requested` is set at a point where no callback
invocation has already passed its entry check, no later callback step
ever mutates `audio_data`; a callback that passed its entry check before
the flag was set may still append its one pending fragment, because the
flag is read only at entry and not under the buffer mutex. -/
theorem C2_amended_no_append_after_stop (frag : List Int) (bufSize : Nat)
    (s : ConcState) (t : List ThreadAct)
    (hstop : s.stop_requested = true) (hout : s.inCallback = false) :
    (concRun frag bufSize s t).ad = s.ad := by
  induction t generalizing s with
  | nil => rfl
  | cons a t ih =>
    rw [concRun_cons]
    cases a with
    | stopSet => exact ih { s with stop_requested := true } rfl hout
    | cbEnter =>
      have : concStep frag bufSize s .cbEnter = s := by simp [concStep, hstop]
      rw [this]; exact ih s hstop hout
    | cbAppend =>
      have : concStep frag bufSize s .cbAppend = s := by simp [concStep, hout]
      rw [this]; exact ih s hstop hout

theorem C2_amended_witness :
    (⟨true, ⟨some [], 0, 0⟩, false⟩ : ConcState).stop_requested = true ∧
      (concRun [7] 20000 ⟨true, ⟨some [], 0, 0⟩, false⟩
          [.cbEnter, .cbAppend]).ad = ⟨some [], 0, 0⟩ :=
  ⟨rfl, C2_amended_no_append_after_stop [7] 20000 _ _ rfl rfl⟩

/-! ## Helper lemmas about `strip_ssml` -/

theorem stripTags_id (l : List Nat) (h60 : 60 ∉ l) (h62 : 62 ∉ l) :
    stripTags false l = l := by
  induction l with
  | nil => rfl
  | cons c rest ih =>
    have hc60 : c ≠ 60 := fun e => h60 (e ▸ List.mem_cons_self c rest)
    have hc62 : c ≠ 62 := fun e => h62 (e ▸ List.mem_cons_self c rest)
    have h1 : (c == 60) = false := by simp [hc60]
    have h2 : (c == 62) = false := by simp [hc62]
    rw [stripTags, h1, h2]
    simp only [Bool.false_eq_true, if_false]
    rw [ih (fun hm => h60 (List.mem_cons_of_mem _ hm))
        (fun hm => h62 (List.mem_cons_of_mem _ hm))]

theorem decodeLoop_id (fuel : Nat) (l : List Nat) (h38 : 38 ∉ l) :
    decodeLoop fuel l = l := by
  induction fuel generalizing l with
  | zero => rfl
  | succ fuel ih =>
    cases l with
    | nil => rfl
    | cons c rest =>
      have hc : (c == 38) = false := by
        simp only [beq_eq_false_iff_ne, ne_eq]
        exact fun e => h38 (e ▸ List.mem_cons_self c rest)
      rw [decodeLoop, hc]
      simp only [Bool.false_eq_true, if_false]
      rw [ih rest (fun hm => h38 (List.mem_cons_of_mem _ hm))]

theorem decode_id (l : List Nat) (h38 : 38 ∉ l) : decode_xml_entities l = l :=
  decodeLoop_id (l.length + 1) l h38

theorem dropWhile_prefix_eq {p : Nat → Bool} {u v : List Nat}
    (hu : List.dropWhile p u = u) (hv : v <+: u) : List.dropWhile p v = v := by
  cases v with
  | nil => rfl
  | cons a w =>
    obtain ⟨r, hr⟩ := hv
    have ha : p a = false := by
      by_contra hpa
      rw [Bool.not_eq_false] at hpa
      have h1 : u = List.dropWhile p (w ++ r) := by
        conv_lhs => rw [← hu, ← hr]
        simp [List.dropWhile_cons, hpa]
      have h2 : (List.dropWhile p (w ++ r)).length ≤ (w ++ r).length :=
        (List.dropWhile_sublist p).length_le
      have h3 : u.length = (w ++ r).length + 1 := by rw [← hr]; simp
      have h4 := congrArg List.length h1
      omega
    simp [List.dropWhile_cons, ha]

theorem trimWS_eq_rdropWhile (l : List Nat) :
    trimWS l = List.rdropWhile isTrimWS (List.dropWhile isTrimWS l) := rfl

theorem trimWS_idem (l : List Nat) : trimWS (trimWS l) = trimWS l := by
  rw [trimWS_eq_rdropWhile, trimWS_eq_rdropWhile]
  have h2 : List.dropWhile isTrimWS
      (List.rdropWhile isTrimWS (List.dropWhile isTrimWS l)) =
      List.rdropWhile isTrimWS (List.dropWhile isTrimWS l) :=
    dropWhile_prefix_eq (List.dropWhile_idempotent isTrimWS l)
      ( List.rdropWhile_prefix isTrimWS (List.dropWhile isTrimWS l))
  rw [h2, List.rdropWhile_idempotent]

/-- Shared helper: on input free of `<`, `&` and `>`, `strip_ssml` is just
the whitespace trim. -/
theorem strip_ssml_no_markup (l : List Nat) (h60 : 60 ∉ l) (h38 : 38 ∉ l)
    (h62 : 62 ∉ l) : strip_ssml l = trimWS l := by
  unfold strip_ssml
  rw [stripTags_id l h60 h62, decode_id l h38]

/-- C4 counterexample: the input "a>b" contains no `<` and no `&`, yet
`strip_ssml` drops the `>` byte (the `>` branch of the tag loop never
copies it), returning "ab" instead of the trimmed input "a>b". -/
theorem C4_counterexample :
    strip_ssml [97, 62, 98] = [97, 98] ∧ ([97, 98] : List Nat) ≠ [97, 62, 98] := by
  constructor
  · rfl
  · decide

/-- C4 amended: for every input containing no `<`, no `&` and additionally
no `>` byte, `strip_ssml` returns the input with leading and trailing
space/tab/newline trimmed and nothing else changed. -/
theorem C4_no_markup_is_trim (l : List Nat) (h60 : 60 ∉ l) (h38 : 38 ∉ l)
    (h62 : 62 ∉ l) : strip_ssml l = trimWS l :=
  strip_ssml_no_markup l h60 h38 h62

theorem C4_witness :
    (60 ∉ ([97, 32, 98] : List Nat)) ∧ (38 ∉ ([97, 32, 98] : List Nat)) ∧
      (62 ∉ ([97, 32, 98] : List Nat)) ∧ strip_ssml [97, 32, 98] = trimWS [97, 32, 98] :=
  ⟨by decide, by decide, by decide,
    C4_no_markup_is_trim [97, 32, 98] (by decide) (by decide) (by decide)⟩

/-- C5 counterexample: `strip_ssml` is not idempotent.  On "&lt;b" the
first pass decodes the entity to "<b"; the second pass treats the decoded
`<` as an opening tag and deletes everything, so
`strip_ssml (strip_ssml "&lt;b") = "" ≠ "<b" = strip_ssml "&lt;b"`. -/
theorem C5_counterexample :
    strip_ssml (strip_ssml [38, 108, 116, 59, 98]) ≠
      strip_ssml [38, 108, 116, 59, 98] := by
  decide

/-- C5 amended: `strip_ssml` is idempotent on every input whose stripped
output contains none of `<`, `>`, `&` (entity decoding can reintroduce
those characters, and on such outputs a second pass strips or decodes
them again). -/
theorem C5_idempotent_no_special (x : List Nat)
    (h60 : 60 ∉ strip_ssml x) (h38 : 38 ∉ strip_ssml x)
    (h62 : 62 ∉ strip_ssml x) :
    strip_ssml (strip_ssml x) = strip_ssml x := by
  rw [strip_ssml_no_markup (strip_ssml x) h60 h38 h62]
  unfold strip_ssml
  exact trimWS_idem _

theorem C5_witness :
    (60 ∉ strip_ssml [97, 32, 98]) ∧ (38 ∉ strip_ssml [97, 32, 98]) ∧
      (62 ∉ strip_ssml [97, 32, 98]) ∧
      strip_ssml (strip_ssml [97, 32, 98]) = strip_ssml [97, 32, 98] :=
  ⟨by decide, by decide, by decide,
    C5_idempotent_no_special [97, 32, 98] (by decide) (by decide) (by decide)⟩

/-! ## Helper lemmas for the sanitizer output invariant -/

theorem mem_clauseAcc {acc : List Nat} {b : Nat} (hb : b ∈ clauseAcc acc) :
    b = 44 ∨ b ∈ acc := by
  have hsub : ∀ x ∈ acc.dropWhile isSpaceTab, x ∈ acc :=
    fun x hx => List.dropWhile_subset _ hx
  simp only [clauseAcc] at hb
  by_cases he : (acc.dropWhile isSpaceTab).isEmpty
  · rw [if_pos he] at hb
    exact Or.inr (hsub b hb)
  · rw [if_neg he] at hb
    rcases List.mem_cons.mp hb with rfl | h
    · exact Or.inl rfl
    · exact Or.inr (hsub b h)

theorem transfer_cons {b x : Nat} {acc : List Nat} (hx : isSafePass x = true)
    (h : b ∈ x :: acc ∨ isSafePass b = true) :
    b ∈ acc ∨ isSafePass b = true := by
  rcases h with h | h
  · rcases List.mem_cons.mp h with rfl | h
    · exact Or.inr hx
    · exact Or.inl h
  · exact Or.inr h

theorem transfer_clause {b : Nat} {acc : List Nat}
    (h : b ∈ 32 :: clauseAcc acc ∨ isSafePass b = true) :
    b ∈ acc ∨ isSafePass b = true := by
  rcases h with h | h
  · rcases List.mem_cons.mp h with rfl | h
    · exact Or.inr (by decide)
    · rcases mem_clauseAcc h with rfl | h
      · exact Or.inr (by decide)
      · exact Or.inl h
  · exact Or.inr h

theorem transfer_word {b : Nat} {w acc : List Nat}
    (hw : ∀ y ∈ w, isSafePass y = true)
    (h : b ∈ w.reverse ++ acc ∨ isSafePass b = true) :
    b ∈ acc ∨ isSafePass b = true := by
  rcases h with h | h
  · rcases List.mem_append.mp h with h | h
    · exact Or.inr (hw b (List.mem_reverse.mp h))
    · exact Or.inl h
  · exact Or.inr h

theorem poundWord_safe : ∀ y ∈ poundWord, isSafePass y = true := by decide
theorem centWord_safe : ∀ y ∈ centWord, isSafePass y = true := by decide
theorem yenWord_safe : ∀ y ∈ yenWord, isSafePass y = true := by decide
theorem euroWord_safe : ∀ y ∈ euroWord, isSafePass y = true := by decide

set_option maxHeartbeats 2000000 in
/-- Every byte of the sanitizer loop's result is an already-emitted byte
or a byte of the safe set. -/
theorem sanitizeLoop_safe (fuel : Nat) :
    ∀ (acc src : List Nat) (b : Nat), b ∈ sanitizeLoop fuel acc src →
      b ∈ acc ∨ isSafePass b = true := by
  induction fuel with
  | zero =>
    intro acc src b hb
    exact Or.inl (List.mem_reverse.mp hb)
  | succ fuel ih =>
    intro acc src b hb
    cases src with
    | nil => exact Or.inl (List.mem_reverse.mp hb)
    | cons c rest =>
      rcases rest with _ | ⟨c1, rest1⟩ <;> rw [sanitizeLoop] at hb <;> repeat' split at hb
      all_goals first
        | exact Or.inl (List.mem_reverse.mp hb)
        | exact ih _ _ _ hb
        | exact transfer_cons (by assumption) (ih _ _ _ hb)
        | exact transfer_cons (by decide) (ih _ _ _ hb)
        | exact transfer_clause (ih _ _ _ hb)
        | exact transfer_word poundWord_safe (ih _ _ _ hb)
        | exact transfer_word centWord_safe (ih _ _ _ hb)
        | exact transfer_word yenWord_safe (ih _ _ _ hb)
        | exact transfer_word euroWord_safe (ih _ _ _ hb)

theorem isSafePass_lt_128 {b : Nat} (h : isSafePass b = true) : b < 128 := by
  simp only [isSafePass, Bool.or_eq_true, Bool.and_eq_true, decide_eq_true_eq,
    beq_iff_eq] at h
  omega

/-- C9: every byte of `sanitize_for_viavoice`'s output is in the declared
safe set — ASCII letters, digits, space, tab, newline, or one of
`. , ! ? $ '` (which covers the comma and space emitted for clause breaks
and the letters of the substituted currency words) — and in particular is
below 0x80, so the output never contains markup bytes or multi-byte
sequences. -/
theorem C9_output_in_safe_set (text : List Nat) (b : Nat)
    (hb : b ∈ sanitize_for_viavoice text) :
    isSafePass b = true ∧ b < 128 := by
  rcases sanitizeLoop_safe (text.length + 1) [] text b hb with h | h
  · exact absurd h (List.not_mem_nil b)
  · exact ⟨h, isSafePass_lt_128 h⟩

theorem C9_witness :
    (112 ∈ sanitize_for_viavoice [194, 163]) ∧
      (isSafePass 112 = true ∧ 112 < 128) :=
  ⟨by decide, C9_output_in_safe_set [194, 163] 112 (by decide)⟩

end ViaVoice
